import Mathlib

/-!
Verification development for the brillo builder module
(src/builders/brillo_builders.py).

The Python module defines a small build-and-test pipeline:
path helpers and a shell-command formatter (BrilloStageBase), a clean
stage (BrilloCleanStage), a sync stage (BrilloSyncStage), a build stage
(BrilloBuildStage), a VM-test stage (BrilloVmTestStage) with an emulator
supervisor (RunEmulator), a device-serial regex scanner
(DiscoverEmulatorSerial) and a bounded poll loop (WaitForEmulatorSerial),
and a builder (BrilloBuilder.RunStages) sequencing the four stages.

We embed those pieces shallowly: pure string construction becomes Lean
string functions, the side-effecting control flow becomes functions
producing an explicit event trace (a list of Ev) together with an
Except-typed outcome, and the filesystem becomes a list of path strings.
-/

namespace Brillo

/-- Exceptions that can abort a stage, from the Python module:
EmulatorFailedToStart and EmulatorNotReady are defined in
brillo_builders.py; commandFailed models the RunCommandError raised by
cros_build_lib.RunCommand on non-zero exit (spec section 4.2: fails with
CommandFailed unless the caller opted into manual status inspection);
syncFailed models a failure surfaced by the repository-sync collaborator. -/
inductive Err where
  | failedToStart
  | notReady
  | commandFailed
  | syncFailed
  deriving DecidableEq, Repr

/-- Observable events of the VM-test stage control flow.  query k is the
device-listing invocation of polling attempt k; the others mirror the
process and logging calls of RunEmulator and PerformStage. -/
inductive Ev where
  | spawn
  | sleep (units : Nat)
  | pollCheck
  | terminate
  | wait
  | logBegin
  | readLog
  | logEnd
  | killServer
  | query (k : Nat)
  | runTests (serial : String)
  deriving DecidableEq, Repr

/-- Python 2 regex word characters without re.UNICODE: [a-zA-Z0-9_];
the character class in the source pattern is [\w-], so the hyphen is
also accepted. -/
def isSerialChar (c : Char) : Bool :=
  c.isAlpha || c.isDigit || c == '_' || c == '-'

/-- One line of device-listing output matched against the source pattern
r'^([\w-]+)\tdevice$': the whole line must be a nonempty run of
[\w-] characters, a tab, then the literal word device; the captured
group (the run before the tab) is returned. -/
def matchDeviceLine (l : String) : Option String :=
  let X := l.data.takeWhile isSerialChar
  let rest := l.data.drop X.length
  if X ≠ [] ∧ rest = '\t' :: "device".data then some (String.mk X) else none

/-- Division of a character sequence into newline-separated lines, the
line structure that re.MULTILINE imposes: the ^ anchor matches at the
start of the text and after each newline, the dollar anchor before each
newline and at the end, so the text divides into lines at each newline
character (an empty text is one empty line, a trailing newline yields a
trailing empty line). -/
def splitLinesAux : List Char → List Char → List (List Char)
  | [], acc => [acc.reverse]
  | c :: cs, acc =>
    if c = '\n' then acc.reverse :: splitLinesAux cs []
    else splitLinesAux cs (c :: acc)

/-- The newline-separated lines of a string. -/
def splitLines (s : String) : List String :=
  (splitLinesAux s.data []).map String.mk

/-- Embedding of BrilloVmTestStage.DiscoverEmulatorSerial applied to the
captured output text: re.search with re.MULTILINE finds the leftmost
line whose whole extent matches the pattern, i.e. the first line (in
order of the newline-separated lines of the text) accepted by
matchDeviceLine. -/
def DiscoverEmulatorSerial (output : String) : Option String :=
  (splitLines output).findSome? matchDeviceLine

/-- One iteration bundle for the poll loop: fuel-indexed loop body of
WaitForEmulatorSerial.  i is the index of the current attempt, n the
number of attempts remaining; each attempt runs DiscoverEmulatorSerial
on that attempt's captured output and, on failure, sleeps 10 units and
retries; exhausting the budget raises EmulatorNotReady. -/
def waitLoop (outputs : Nat → String) : Nat → Nat → List Ev × Except Err String
  | _, 0 => ([], .error .notReady)
  | i, n + 1 =>
    match DiscoverEmulatorSerial (outputs i) with
    | some s => ([.query i], .ok s)
    | none =>
      let rest := waitLoop outputs (i + 1) n
      (.query i :: .sleep 10 :: rest.1, rest.2)

/-- Embedding of BrilloVmTestStage.WaitForEmulatorSerial: for _ in
xrange(20) do one discovery attempt, return its serial if found, else
sleep 10 and continue; raise EmulatorNotReady when the 20 attempts are
exhausted. -/
def WaitForEmulatorSerial (outputs : Nat → String) : List Ev × Except Err String :=
  waitLoop outputs 0 20

/-- Embedding of BrilloStageBase.BrilloRoot: the build root with the
fixed suffix appended (buildroot + '_brillo'). -/
def BrilloRoot (buildroot : String) : String :=
  buildroot ++ "_brillo"

/-- Embedding of BrilloStageBase.BuildOutput:
os.path.join(self.BrilloRoot(), 'out'). -/
def BuildOutput (buildroot : String) : String :=
  BrilloRoot buildroot ++ "/out"

/-- Embedding of BrilloStageBase.FindShellCmd: build the cmd_list of the
four steps (source envsetup, lunch the target, set OUT_DIR, the payload
tokens joined by spaces) and join them with the separator
string " > /dev/null && ", exactly as the Python join does. -/
def FindShellCmd (target buildroot : String) (cmd : List String) : String :=
  String.intercalate " > /dev/null && "
    [". build/envsetup.sh",
     "lunch " ++ target,
     "OUT_DIR=" ++ BuildOutput buildroot,
     String.intercalate " " cmd]

/-- The four segments of the joined shell line, seen as the commands an
and-chain shell would execute: each of the three setup steps carries the
stdout redirection the join appended to it, the payload carries none. -/
def shellSegments (target buildroot : String) (cmd : List String) : List String :=
  [". build/envsetup.sh > /dev/null",
   "lunch " ++ target ++ " > /dev/null",
   "OUT_DIR=" ++ BuildOutput buildroot ++ " > /dev/null",
   String.intercalate " " cmd]

/-- Semantics of a POSIX and-chain a && b && c && d: run each command in
order while the previous ones succeeded; return the list of commands
actually executed.  exec tells whether a given command succeeds. -/
def runAndChain (exec : String → Bool) : List String → List String
  | [] => []
  | c :: cs => if exec c then c :: runAndChain exec cs else [c]

/-- Modelled from the spec: osutils.RmDir(path, ignore_missing=True) is
not under src; spec section 4.3 specifies recursive directory removal
that tolerates an absent target without error.  The filesystem is a list
of absolute path strings; removal drops the path itself and every path
strictly below it (those extending it past a slash separator). -/
def pathUnder (d p : String) : Bool :=
  List.isPrefixOf (d.data ++ ['/']) p.data

/-- Modelled from the spec: recursive removal of directory d from the
filesystem fs, a no-op when nothing at or below d exists. -/
def rmDir (fs : List String) (d : String) : List String :=
  fs.filter fun p => !(p == d || pathUnder d p)

/-- Embedding of BrilloCleanStage.PerformStage: remove the build output
directory, and when the clobber option is set also remove the brillo
root. -/
def CleanStage (fs : List String) (buildroot : String) (clobber : Bool) : List String :=
  let fs1 := rmDir fs (BuildOutput buildroot)
  if clobber then rmDir fs1 (BrilloRoot buildroot) else fs1

/-- Teardown block of RunEmulator (the finally clause): check the
process, terminate it if it is still running, wait for it, then emit the
captured log bracketed by the begin and end marker lines. -/
def teardown (aliveAtTeardown : Bool) : List Ev :=
  .pollCheck :: (if aliveAtTeardown then [.terminate] else [])
    ++ [.wait, .logBegin, .readLog, .logEnd]

/-- Embedding of BrilloVmTestStage.RunEmulator as a context manager:
spawn, sleep 10, check the process; if it already exited raise
EmulatorFailedToStart (the body never runs), else run the supervised
body; in both cases the finally clause (teardown) runs afterwards, and
the outcome is the body's (or the startup failure).  aliveAfterGrace is
what p.poll() reports after the grace sleep, aliveAtTeardown what it
reports inside the finally clause; body is the supervised work's trace
and outcome. -/
def RunEmulator (aliveAfterGrace : Bool) (body : List Ev × Except Err Unit)
    (aliveAtTeardown : Bool) : List Ev × Except Err Unit :=
  let pre : List Ev := [.spawn, .sleep 10, .pollCheck]
  if aliveAfterGrace then
    (pre ++ body.1 ++ teardown aliveAtTeardown, body.2)
  else
    (pre ++ teardown aliveAtTeardown, .error .failedToStart)

/-- Supervised body of BrilloVmTestStage.PerformStage: run adb
kill-server through RunLunchCommand (cros_build_lib.RunCommand raises
CommandFailed on non-zero exit, per spec section 4.2 Command Runner,
since the call does not opt into manual status inspection), then poll
for the serial, then run the test payload (again raising on non-zero
exit). -/
def performStageBody (killExit : Nat) (outputs : Nat → String) (testExit : Nat) :
    List Ev × Except Err Unit :=
  if killExit ≠ 0 then ([.killServer], .error .commandFailed)
  else
    let w := WaitForEmulatorSerial outputs
    match w.2 with
    | .error e => (.killServer :: w.1, .error e)
    | .ok serial =>
      (.killServer :: w.1 ++ [.runTests serial],
       if testExit ≠ 0 then .error .commandFailed else .ok ())

/-- Embedding of BrilloVmTestStage.PerformStage: the supervised body run
inside the RunEmulator scope. -/
def PerformStage (aliveAfterGrace : Bool) (killExit : Nat) (outputs : Nat → String)
    (testExit : Nat) (aliveAtTeardown : Bool) : List Ev × Except Err Unit :=
  RunEmulator aliveAfterGrace (performStageBody killExit outputs testExit) aliveAtTeardown

/-- Predicate picking out device-listing query events in a trace. -/
def isQuery : Ev → Bool
  | .query _ => true
  | _ => false

/-- The four stages run by BrilloBuilder.RunStages, in declaration
order. -/
inductive StageName where
  | clean
  | sync
  | build
  | vmTest
  deriving DecidableEq, Repr

/-- Modelled from the spec: the generic stage-pipeline host
(generic_builders.Builder and its _RunStage) is not under src; spec
section 4.4 specifies that stages run strictly in declared order and the
first failure halts execution of all subsequent stages, the pipeline
terminating with that failure.  stageResult gives each stage body's
outcome; the result is the list of stages executed and the terminal
status. -/
def RunStages (stageResult : StageName → Except Err Unit) :
    List StageName × Except Err Unit :=
  match stageResult .clean with
  | .error e => ([.clean], .error e)
  | .ok _ =>
    match stageResult .sync with
    | .error e => ([.clean, .sync], .error e)
    | .ok _ =>
      match stageResult .build with
      | .error e => ([.clean, .sync, .build], .error e)
      | .ok _ =>
        match stageResult .vmTest with
        | .error e => ([.clean, .sync, .build, .vmTest], .error e)
        | .ok _ => ([.clean, .sync, .build, .vmTest], .ok ())

/-! Helper lemmas. -/

lemma takeWhile_append_of_all {p : Char → Bool} (l₁ l₂ : List Char)
    (h : ∀ c ∈ l₁, p c = true) :
    (l₁ ++ l₂).takeWhile p = l₁ ++ l₂.takeWhile p := by
  induction l₁ with
  | nil => rfl
  | cons c cs ih =>
    simp [List.takeWhile_cons, h c (by simp), ih fun x hx => h x (by simp [hx])]

lemma takeWhile_append_drop (p : Char → Bool) (l : List Char) :
    l.takeWhile p ++ l.drop (l.takeWhile p).length = l := by
  induction l with
  | nil => rfl
  | cons c cs ih =>
    by_cases hc : p c <;> simp [List.takeWhile_cons, hc, ih]

lemma findSome?_first {α β : Type} (f : α → Option β) (pre post : List α) (m : α) (b : β)
    (hpre : ∀ a ∈ pre, f a = none) (hm : f m = some b) :
    (pre ++ m :: post).findSome? f = some b := by
  induction pre with
  | nil => simp [List.findSome?_cons, hm]
  | cons a l ih =>
    simp only [List.cons_append, List.findSome?_cons, hpre a (by simp)]
    exact ih fun x hx => hpre x (by simp [hx])

lemma brilloRoot_ne_buildOutput (r : String) : BrilloRoot r ≠ BuildOutput r := by
  intro h
  have h2 := congrArg String.length h
  rw [BuildOutput, String.length_append] at h2
  have h3 : ("/out" : String).length = 4 := rfl
  omega

lemma pathUnder_buildOutput_brilloRoot (r : String) :
    pathUnder (BuildOutput r) (BrilloRoot r) = false := by
  rw [pathUnder]
  by_contra h
  rw [Bool.not_eq_false, List.isPrefixOf_iff_prefix] at h
  have hlen := h.length_le
  rw [List.length_append, BuildOutput, String.data_append, List.length_append] at hlen
  simp at hlen
  omega

/-- C8: for every build target, output directory and payload token
sequence, FindShellCmd is pure string construction whose result is the
and-chain of (a) sourcing environment setup, (b) selecting the build
target, (c) setting the output-directory variable and (d) the payload
joined by spaces; under and-chain execution semantics, if any of
(a)-(c) fails the payload segment is never executed, and if all three
succeed every segment runs. -/
theorem c8_shell_cmd_gating (target buildroot : String) (cmd : List String) :
    FindShellCmd target buildroot cmd =
      String.intercalate " && " (shellSegments target buildroot cmd) ∧
    (∀ exec : String → Bool,
      (exec (". build/envsetup.sh > /dev/null") = false ∨
       exec ("lunch " ++ target ++ " > /dev/null") = false ∨
       exec ("OUT_DIR=" ++ BuildOutput buildroot ++ " > /dev/null") = false) →
      (runAndChain exec (shellSegments target buildroot cmd)).length ≤ 3) ∧
    (∀ exec : String → Bool,
      exec (". build/envsetup.sh > /dev/null") = true →
      exec ("lunch " ++ target ++ " > /dev/null") = true →
      exec ("OUT_DIR=" ++ BuildOutput buildroot ++ " > /dev/null") = true →
      runAndChain exec (shellSegments target buildroot cmd) =
        shellSegments target buildroot cmd) := by
  refine ⟨?_, ?_, ?_⟩
  · have hsep : (" > /dev/null && " : String) = " > /dev/null" ++ " && " := rfl
    simp [FindShellCmd, shellSegments, String.intercalate, String.intercalate.go,
      hsep, String.append_assoc]
  · intro exec h
    rcases h with h | h | h
    · simp [runAndChain, shellSegments, h]
    · cases h0 : exec ". build/envsetup.sh > /dev/null" <;>
        simp [runAndChain, shellSegments, h, h0]
    · cases h0 : exec ". build/envsetup.sh > /dev/null" <;>
        cases h1 : exec ("lunch " ++ target ++ " > /dev/null") <;>
          simp [runAndChain, shellSegments, h, h0, h1]
  · intro exec h0 h1 h2
    simp [runAndChain, shellSegments, h0, h1, h2]

/-- Witness for C8 at a concrete target, root and payload, with the
gating hypotheses discharged for an all-failing and an all-passing
executor. -/
theorem c8_shell_cmd_gating_witness :
    FindShellCmd "tgt" "r" ["make"] =
      String.intercalate " && " (shellSegments "tgt" "r" ["make"]) ∧
    (runAndChain (fun _ => false) (shellSegments "tgt" "r" ["make"])).length ≤ 3 ∧
    runAndChain (fun _ => true) (shellSegments "tgt" "r" ["make"]) =
      shellSegments "tgt" "r" ["make"] :=
  ⟨(c8_shell_cmd_gating "tgt" "r" ["make"]).1,
   (c8_shell_cmd_gating "tgt" "r" ["make"]).2.1 (fun _ => false) (Or.inl rfl),
   (c8_shell_cmd_gating "tgt" "r" ["make"]).2.2 (fun _ => true) rfl rfl rfl⟩

/-- C9: in the joined shell line, each of the three setup steps carries
a stdout redirection to /dev/null appended by the join separator, while
the payload (the last segment) is exactly the space-joined tokens with
nothing appended. -/
theorem c9_setup_stdout_redirected (target buildroot : String) (cmd : List String) :
    FindShellCmd target buildroot cmd =
      (". build/envsetup.sh" ++ " > /dev/null") ++ " && " ++
        (("lunch " ++ target) ++ " > /dev/null") ++ " && " ++
          (("OUT_DIR=" ++ BuildOutput buildroot) ++ " > /dev/null") ++ " && " ++
            String.intercalate " " cmd ∧
    shellSegments target buildroot cmd =
      [". build/envsetup.sh" ++ " > /dev/null",
       ("lunch " ++ target) ++ " > /dev/null",
       ("OUT_DIR=" ++ BuildOutput buildroot) ++ " > /dev/null",
       String.intercalate " " cmd] := by
  constructor
  · have hsep : (" > /dev/null && " : String) = " > /dev/null" ++ " && " := rfl
    simp [FindShellCmd, String.intercalate, String.intercalate.go,
      hsep, String.append_assoc]
  · simp [shellSegments, String.append_assoc]

/-- C7: for every filesystem and workspace root, CleanStage with
clobber false removes the output directory (and everything below it)
while leaving the workspace root present when it existed before; with
clobber true it removes both the output directory and the workspace
root; and removal is a no-op, not an error, when nothing at or below
the target exists. -/
theorem c7_clean_stage (fs : List String) (buildroot : String) :
    BuildOutput buildroot ∉ CleanStage fs buildroot false ∧
    (∀ p, pathUnder (BuildOutput buildroot) p = true →
      p ∉ CleanStage fs buildroot false) ∧
    (BrilloRoot buildroot ∈ fs → BrilloRoot buildroot ∈ CleanStage fs buildroot false) ∧
    BuildOutput buildroot ∉ CleanStage fs buildroot true ∧
    BrilloRoot buildroot ∉ CleanStage fs buildroot true ∧
    (∀ d, (∀ p ∈ fs, p ≠ d ∧ pathUnder d p = false) → rmDir fs d = fs) := by
  refine ⟨?_, ?_, ?_, ?_, ?_, ?_⟩
  · intro hmem
    simp [CleanStage, rmDir, List.mem_filter] at hmem
  · intro p hp hmem
    simp [CleanStage, rmDir, List.mem_filter] at hmem
    exact absurd hp (by simp [hmem.2.2])
  · intro hmem
    have hcond : (!(BrilloRoot buildroot == BuildOutput buildroot
        || pathUnder (BuildOutput buildroot) (BrilloRoot buildroot))) = true := by
      simp [brilloRoot_ne_buildOutput buildroot, pathUnder_buildOutput_brilloRoot buildroot]
    simp [CleanStage, rmDir, List.mem_filter, hmem, hcond]
    exact ⟨brilloRoot_ne_buildOutput buildroot, pathUnder_buildOutput_brilloRoot buildroot⟩
  · intro hmem
    simp only [CleanStage, if_pos rfl, rmDir, List.mem_filter] at hmem
    simp at hmem
  · intro hmem
    simp [CleanStage, rmDir, List.mem_filter] at hmem
  · intro d h
    rw [rmDir, List.filter_eq_self]
    intro p hp
    simp [(h p hp).1, (h p hp).2]

/-- Witness for C7 on a concrete filesystem holding the root, the
output directory, a file below it and an unrelated path. -/
theorem c7_clean_stage_witness :
    BuildOutput "r" ∉ CleanStage ["r_brillo", "r_brillo/out", "r_brillo/out/a.o", "z"] "r" false ∧
    "r_brillo/out/a.o" ∉ CleanStage ["r_brillo", "r_brillo/out", "r_brillo/out/a.o", "z"] "r" false ∧
    BrilloRoot "r" ∈ CleanStage ["r_brillo", "r_brillo/out", "r_brillo/out/a.o", "z"] "r" false ∧
    BuildOutput "r" ∉ CleanStage ["r_brillo", "r_brillo/out", "r_brillo/out/a.o", "z"] "r" true ∧
    BrilloRoot "r" ∉ CleanStage ["r_brillo", "r_brillo/out", "r_brillo/out/a.o", "z"] "r" true ∧
    rmDir ["r_brillo", "r_brillo/out", "r_brillo/out/a.o", "z"] "q" =
      ["r_brillo", "r_brillo/out", "r_brillo/out/a.o", "z"] :=
  ⟨(c7_clean_stage ["r_brillo", "r_brillo/out", "r_brillo/out/a.o", "z"] "r").1,
   (c7_clean_stage ["r_brillo", "r_brillo/out", "r_brillo/out/a.o", "z"] "r").2.1
     "r_brillo/out/a.o" (by decide),
   (c7_clean_stage ["r_brillo", "r_brillo/out", "r_brillo/out/a.o", "z"] "r").2.2.1
     (by decide),
   (c7_clean_stage ["r_brillo", "r_brillo/out", "r_brillo/out/a.o", "z"] "r").2.2.2.1,
   (c7_clean_stage ["r_brillo", "r_brillo/out", "r_brillo/out/a.o", "z"] "r").2.2.2.2.1,
   (c7_clean_stage ["r_brillo", "r_brillo/out", "r_brillo/out/a.o", "z"] "r").2.2.2.2.2
     "q" (by decide)⟩

/-- C6: RunStages executes the stages in the fixed declared order
Clean, Sync, Build, VmTest (the executed list is always a prefix of
that order), and when Clean succeeds and Sync fails with SyncFailed,
neither Build nor VmTest executes and the terminal status is the Sync
failure. -/
theorem c6_sync_failure_halts (stageResult : StageName → Except Err Unit)
    (hclean : stageResult .clean = .ok ())
    (hsync : stageResult .sync = .error .syncFailed) :
    RunStages stageResult = ([.clean, .sync], .error .syncFailed) ∧
    StageName.build ∉ (RunStages stageResult).1 ∧
    StageName.vmTest ∉ (RunStages stageResult).1 ∧
    ∀ r : StageName → Except Err Unit,
      (RunStages r).1 <+: [StageName.clean, .sync, .build, .vmTest] := by
  have key : RunStages stageResult = ([.clean, .sync], .error .syncFailed) := by
    simp [RunStages, hclean, hsync]
  refine ⟨key, by simp [key], by simp [key], ?_⟩
  intro r
  cases hc : r .clean with
  | error e => simp only [RunStages, hc]; exact ⟨_, rfl⟩
  | ok u =>
    cases hs : r .sync with
    | error e => simp only [RunStages, hc, hs]; exact ⟨_, rfl⟩
    | ok v =>
      cases hb : r .build with
      | error e => simp only [RunStages, hc, hs, hb]; exact ⟨_, rfl⟩
      | ok w =>
        cases hv : r .vmTest with
        | error e => simp only [RunStages, hc, hs, hb, hv]; exact ⟨[], rfl⟩
        | ok x => simp only [RunStages, hc, hs, hb, hv]; exact ⟨[], rfl⟩

/-- Witness for C6 on a concrete stage-result assignment where Sync
fails with SyncFailed and every other stage would succeed. -/
theorem c6_sync_failure_halts_witness :
    RunStages (fun s => match s with
      | .sync => .error .syncFailed
      | _ => .ok ()) = ([.clean, .sync], .error .syncFailed) ∧
    StageName.build ∉ (RunStages (fun s => match s with
      | .sync => .error .syncFailed
      | _ => .ok ())).1 ∧
    StageName.vmTest ∉ (RunStages (fun s => match s with
      | .sync => .error .syncFailed
      | _ => .ok ())).1 :=
  ⟨(c6_sync_failure_halts (fun s => match s with
      | .sync => .error .syncFailed
      | _ => .ok ()) rfl rfl).1,
   (c6_sync_failure_halts (fun s => match s with
      | .sync => .error .syncFailed
      | _ => .ok ()) rfl rfl).2.1,
   (c6_sync_failure_halts (fun s => match s with
      | .sync => .error .syncFailed
      | _ => .ok ()) rfl rfl).2.2.1⟩

/-- C1: for every supervised body (normal completion, any raised
error, or a timeout surfacing as an error) and every process state,
RunEmulator performs teardown exactly once: the trace contains exactly
one termination request when the process is still running at teardown
and none otherwise, exactly one wait-for-exit, and exactly one log
read bracketed by exactly one begin and one end marker.  The
hypotheses say only that the supervised body does not itself emit
teardown events, which holds of the stage body in the module. -/
theorem c1_teardown_exactly_once (a td : Bool) (body : List Ev × Except Err Unit)
    (hterm : Ev.terminate ∉ body.1) (hwait : Ev.wait ∉ body.1)
    (hbegin : Ev.logBegin ∉ body.1) (hread : Ev.readLog ∉ body.1)
    (hend : Ev.logEnd ∉ body.1) :
    (RunEmulator a body td).1.count .terminate = (if td then 1 else 0) ∧
    (RunEmulator a body td).1.count .wait = 1 ∧
    (RunEmulator a body td).1.count .logBegin = 1 ∧
    (RunEmulator a body td).1.count .readLog = 1 ∧
    (RunEmulator a body td).1.count .logEnd = 1 := by
  have h1 := List.count_eq_zero.mpr hterm
  have h2 := List.count_eq_zero.mpr hwait
  have h3 := List.count_eq_zero.mpr hbegin
  have h4 := List.count_eq_zero.mpr hread
  have h5 := List.count_eq_zero.mpr hend
  cases a <;> cases td <;>
    simp [RunEmulator, teardown, List.count_append, List.count_cons,
      h1, h2, h3, h4, h5]

/-- Witness for C1 at a concrete empty, successful body with the
process alive at both checkpoints. -/
theorem c1_teardown_exactly_once_witness :
    (RunEmulator true ([], .ok ()) true).1.count .terminate = (if true then 1 else 0) ∧
    (RunEmulator true ([], .ok ()) true).1.count .wait = 1 ∧
    (RunEmulator true ([], .ok ()) true).1.count .logBegin = 1 ∧
    (RunEmulator true ([], .ok ()) true).1.count .readLog = 1 ∧
    (RunEmulator true ([], .ok ()) true).1.count .logEnd = 1 :=
  c1_teardown_exactly_once true true ([], .ok ())
    (by simp) (by simp) (by simp) (by simp) (by simp)

/-- C5: when the process has exited by the end of the startup grace
period, RunEmulator ends with EmulatorFailedToStart, the supervised
body never starts (its first event, the kill-server call, is absent)
and no device-listing query occurs. -/
theorem c5_startup_failure_no_poll (body : List Ev × Except Err Unit) (td : Bool) :
    (RunEmulator false body td).2 = .error .failedToStart ∧
    (RunEmulator false body td).1.countP isQuery = 0 ∧
    Ev.killServer ∉ (RunEmulator false body td).1 := by
  cases td <;> exact ⟨rfl, rfl, by simp [RunEmulator, teardown]⟩

/-- Exhausting the poll budget: when every attempt in the window comes
back without a serial, the loop trace is exactly one query and one
10-unit sleep per attempt and the outcome is EmulatorNotReady. -/
lemma waitLoop_all_none (outputs : Nat → String) (n : Nat) :
    ∀ i, (∀ j, i ≤ j → j < i + n → DiscoverEmulatorSerial (outputs j) = none) →
      waitLoop outputs i n =
        ((List.range' i n).flatMap fun j => [.query j, .sleep 10], .error .notReady) := by
  induction n with
  | zero => intro i _; simp [waitLoop]
  | succ n ih =>
    intro i h
    have h0 : DiscoverEmulatorSerial (outputs i) = none := h i le_rfl (by omega)
    have hrest := ih (i + 1) fun j hj1 hj2 => h j (by omega) (by omega)
    simp [waitLoop, h0, hrest, List.range'_succ]

/-- C2: if every attempt in the budget fails to discover a serial,
WaitForEmulatorSerial performs exactly 20 device-listing queries with a
10-unit sleep between consecutive attempts, then fails with
EmulatorNotReady, and no query beyond the 20th ever occurs. -/
theorem c2_bounded_retry (outputs : Nat → String)
    (h : ∀ j, j < 20 → DiscoverEmulatorSerial (outputs j) = none) :
    WaitForEmulatorSerial outputs =
      ((List.range 20).flatMap fun j => [.query j, .sleep 10], .error .notReady) ∧
    (WaitForEmulatorSerial outputs).1.countP isQuery = 20 ∧
    ∀ j, 20 ≤ j → Ev.query j ∉ (WaitForEmulatorSerial outputs).1 := by
  have key : WaitForEmulatorSerial outputs =
      ((List.range 20).flatMap fun j => [.query j, .sleep 10], .error .notReady) := by
    rw [WaitForEmulatorSerial, List.range_eq_range' 20]
    exact waitLoop_all_none outputs 20 0 fun j _ hj => h j (by omega)
  refine ⟨key, by rw [key]; decide, ?_⟩
  intro j hj hmem
  rw [key] at hmem
  simp only [List.mem_flatMap, List.mem_range, List.mem_cons] at hmem
  obtain ⟨k, hk, hcase⟩ := hmem
  rcases hcase with hq | hq
  · cases hq; omega
  · simp at hq

/-- Witness for C2 with every captured output empty, so that no
attempt ever matches. -/
theorem c2_bounded_retry_witness :
    WaitForEmulatorSerial (fun _ => "") =
      ((List.range 20).flatMap fun j => [.query j, .sleep 10], .error .notReady) :=
  (c2_bounded_retry (fun _ => "") (by intro j hj; show DiscoverEmulatorSerial "" = none; decide)).1

/-- C10: under total failure the loop sleeps 10 units after every
failed attempt including the final one, so the trace carries exactly
20 sleeps (not 19) and ends in EmulatorNotReady. -/
theorem c10_sleep_after_final_attempt (outputs : Nat → String)
    (h : ∀ j, j < 20 → DiscoverEmulatorSerial (outputs j) = none) :
    (WaitForEmulatorSerial outputs).1.count (Ev.sleep 10) = 20 ∧
    (WaitForEmulatorSerial outputs).2 = .error .notReady := by
  have key : WaitForEmulatorSerial outputs =
      ((List.range 20).flatMap fun j => [.query j, .sleep 10], .error .notReady) := by
    rw [WaitForEmulatorSerial, List.range_eq_range' 20]
    exact waitLoop_all_none outputs 20 0 fun j _ hj => h j (by omega)
  rw [key]
  exact ⟨by decide, rfl⟩

/-- Witness for C10 with every captured output empty. -/
theorem c10_sleep_after_final_attempt_witness :
    (WaitForEmulatorSerial (fun _ => "")).1.count (Ev.sleep 10) = 20 :=
  (c10_sleep_after_final_attempt (fun _ => "") (by intro j hj; show DiscoverEmulatorSerial "" = none; decide)).1

/-- C4 counterexample: with the process alive after the grace period
and the kill-server shell line exiting non-zero, the stage's outcome is
the raised CommandFailed (not a logged-and-swallowed failure) and no
readiness-poll query ever runs, refuting the claim that a kill-server
failure is non-fatal and the stage proceeds to the poll. -/
theorem c4_kill_server_counterexample :
    (PerformStage true 1 (fun _ => "") 0 true).2 = Except.error Err.commandFailed ∧
    (PerformStage true 1 (fun _ => "") 0 true).1.countP isQuery = 0 :=
  ⟨rfl, rfl⟩

/-- C4 amended: a non-zero exit of the adb kill-server command raises
CommandFailed through RunCommand, which propagates as the VmTest
stage's failure (after emulator teardown), and the readiness poll is
never reached: whatever the poll outputs and test exit code would have
been, the stage ends with CommandFailed and its trace holds no
device-listing query. -/
theorem c4_kill_server_failure_fatal (killExit testExit : Nat) (outputs : Nat → String)
    (td : Bool) (h : killExit ≠ 0) :
    (PerformStage true killExit outputs testExit td).2 = .error .commandFailed ∧
    (PerformStage true killExit outputs testExit td).1.countP isQuery = 0 := by
  cases td <;>
    simp [PerformStage, RunEmulator, performStageBody, teardown, h, isQuery,
      List.countP_append, List.countP_cons]

/-- Witness for the amended C4 at concrete exit codes. -/
theorem c4_kill_server_failure_fatal_witness :
    (PerformStage true 2 (fun _ => "") 5 false).2 = Except.error Err.commandFailed ∧
    (PerformStage true 2 (fun _ => "") 5 false).1.countP isQuery = 0 :=
  c4_kill_server_failure_fatal 2 5 (fun _ => "") false (by decide)

/-- A line consisting of a nonempty serial-character token, a tab and
the word device is accepted, returning the token. -/
lemma matchDeviceLine_eq_some (X : String) (hne : X.data ≠ [])
    (hall : ∀ c ∈ X.data, isSerialChar c = true) :
    matchDeviceLine (X ++ "\tdevice") = some X := by
  have hdata : (X ++ "\tdevice").data = X.data ++ '\t' :: "device".data := by
    rw [String.data_append]
  have htab : isSerialChar '\t' = false := rfl
  have htw : (X.data ++ '\t' :: "device".data).takeWhile isSerialChar = X.data := by
    rw [takeWhile_append_of_all _ _ hall]
    simp [List.takeWhile_cons, htab]
  simp only [matchDeviceLine, hdata, htw, List.drop_left]
  simp [hne]

/-- Soundness of the line matcher: an accepted line decomposes as the
returned token (nonempty, all serial characters), a tab and the word
device. -/
lemma matchDeviceLine_sound (l X : String) (h : matchDeviceLine l = some X) :
    X.data ≠ [] ∧ (∀ c ∈ X.data, isSerialChar c = true) ∧
    l.data = X.data ++ '\t' :: "device".data := by
  simp only [matchDeviceLine] at h
  split at h
  case isTrue hc =>
    have hx := Option.some.inj h
    subst hx
    refine ⟨hc.1, fun c hcmem => List.mem_takeWhile_imp hcmem, ?_⟩
    conv_lhs => rw [← takeWhile_append_drop isSerialChar l.data]
    rw [hc.2]
  case isFalse hc =>
    simp at h

/-- A line of the form token, tab, offline is never accepted, whatever
the token. -/
lemma matchDeviceLine_offline (X : String) :
    matchDeviceLine (X ++ "\toffline") = none := by
  cases h : matchDeviceLine (X ++ "\toffline") with
  | none => rfl
  | some Y =>
    obtain ⟨-, -, hdata⟩ := matchDeviceLine_sound _ _ h
    rw [String.data_append] at hdata
    have e1 : ("\toffline" : String).data = '\t' :: "offline".data := rfl
    rw [e1] at hdata
    have hrev := congrArg List.reverse hdata
    rw [List.reverse_append, List.reverse_append] at hrev
    have r1 : ('\t' :: "offline".data).reverse =
        ['e', 'n', 'i', 'l', 'f', 'f', 'o', '\t'] := rfl
    have r2 : ('\t' :: "device".data).reverse =
        ['e', 'c', 'i', 'v', 'e', 'd', '\t'] := rfl
    rw [r1, r2] at hrev
    simp only [List.cons_append, List.nil_append] at hrev
    injection hrev with h1 hrest
    injection hrest with h2 hrest2
    exact absurd h2 (by decide)

/-- C3 counterexample: the text consisting of the single line a.b, tab,
device contains a line exactly of the form token-tab-device with a
token free of tabs and newlines, yet DiscoverEmulatorSerial returns
none (the dot is outside the regex character class), refuting the claim
for arbitrary tab-and-newline-free tokens. -/
theorem c3_token_shape_counterexample :
    splitLines "a.b\tdevice" = ["a.b" ++ "\t" ++ "device"] ∧
    ("a.b").data.all (fun c => !(c == '\t' || c == '\n')) = true ∧
    DiscoverEmulatorSerial "a.b\tdevice" = none := by
  exact ⟨by decide, by decide, by decide⟩

/-- C3 amended: restricting the token to a nonempty run of word
characters (ASCII letters, digits, underscore) and hyphens, the claim
holds: if some line of the captured text is exactly such a token
followed by a tab and the word device, and every earlier line fails the
matcher, DiscoverEmulatorSerial returns that token (the first match); a
token-tab-offline line never matches; and a text none of whose lines
match yields none. -/
theorem c3_discover_serial_amended (output X : String) :
    (∀ pre post, X.data ≠ [] → (∀ c ∈ X.data, isSerialChar c = true) →
      (∀ l ∈ pre, matchDeviceLine l = none) →
      splitLines output = pre ++ (X ++ "\tdevice") :: post →
      DiscoverEmulatorSerial output = some X) ∧
    matchDeviceLine (X ++ "\toffline") = none ∧
    ((∀ l ∈ splitLines output, matchDeviceLine l = none) →
      DiscoverEmulatorSerial output = none) := by
  refine ⟨?_, matchDeviceLine_offline X, ?_⟩
  · intro pre post h1 h2 hpre hsplit
    rw [DiscoverEmulatorSerial, hsplit]
    exact findSome?_first _ _ _ _ _ hpre (matchDeviceLine_eq_some X h1 h2)
  · intro hall
    rw [DiscoverEmulatorSerial]
    exact List.findSome?_eq_none_iff.mpr hall

/-- Witness for the amended C3 at a concrete matching text, offline
line and non-matching text. -/
theorem c3_discover_serial_amended_witness :
    DiscoverEmulatorSerial "x-1\tdevice" = some "x-1" ∧
    matchDeviceLine ("x-1" ++ "\toffline") = none ∧
    DiscoverEmulatorSerial "junk line" = none :=
  ⟨(c3_discover_serial_amended "x-1\tdevice" "x-1").1 [] [] (by decide) (by decide)
     (by simp) (by decide),
   (c3_discover_serial_amended "x-1\tdevice" "x-1").2.1,
   (c3_discover_serial_amended "junk line" "x-1").2.2 (by decide)⟩

end Brillo
